import Mathlib

/-!
# Verification of the user-management microservice core

Shallow embedding of the request-handling core of the repository:

* `InMem` — the in-memory `UsersService` (`Map`-backed store with a
  `nextId` counter): `createUser`, `getUserList`.
* `Db` — the repository-backed `UsersService` (`users.service.ts`):
  `findOneBy`-based conflict check, four-field projection to the
  response DTO, `getUserList` with its defensive null check.
* `Filter` — the global `HttpExceptionFilter.catch` error formatter.
* `Validation` — the `CreateUserDto` decorator stack evaluated under the
  documented class-validator semantics, together with the global
  `ValidationPipe` whitelist / forbidNonWhitelisted configuration.

Timestamps are modelled as natural numbers (`Date.now` ticks); strings
are Lean `String`s.
-/

namespace InMem

/-- A stored user record; in the in-memory service the stored value is the
`UserResponseDto` itself: `{id, name, email, createdAt}`. -/
structure UserRec where
  id : Nat
  name : String
  email : String
  createdAt : Nat
deriving Repr, DecidableEq

/-- The conflict error thrown by `UserConflictException`: it carries the
message built in its constructor. -/
structure Conflict where
  message : String
deriving Repr, DecidableEq

/-- Message template of `UserConflictException`:
`User with email ${email} already exists`. -/
def conflictMessage (email : String) : String :=
  "User with email " ++ email ++ " already exists"

/-- Service state: the values of the `users : Map<number, UserResponseDto>`
in insertion order, plus the `nextId` counter (initialised to 1). -/
structure State where
  users : List UserRec
  nextId : Nat
deriving Repr, DecidableEq

/-- The initial service state: empty map, `nextId = 1`. -/
def initState : State := ⟨[], 1⟩

/-- `Map.set` keyed by `id` over the value list in insertion order:
replaces in place when the key is present, appends otherwise. -/
def mapSet (l : List UserRec) (u : UserRec) : List UserRec :=
  if l.any (fun v => v.id == u.id) then
    l.map (fun v => if v.id == u.id then u else v)
  else
    l ++ [u]

/-- `UsersService.createUser` of the in-memory service: scan the stored
values for an equal email (`===` on strings); on a hit throw
`UserConflictException` (state untouched); otherwise build the new record
with `id = nextId++`, the given name/email and `createdAt = now`, store it
under its id, and return it. -/
def createUser (s : State) (name email : String) (now : Nat) :
    Except Conflict UserRec × State :=
  if s.users.any (fun u => u.email == email) then
    (Except.error ⟨conflictMessage email⟩, s)
  else
    let newUser : UserRec := ⟨s.nextId, name, email, now⟩
    (Except.ok newUser, ⟨mapSet s.users newUser, s.nextId + 1⟩)

/-- `UsersService.getUserList` of the in-memory service:
`Array.from(this.users.values())`. -/
def getUserList (s : State) : List UserRec := s.users

/-- States reachable from the initial state by sequential, non-concurrent
invocations of the service operations (`getUserList` does not change
state, so only `createUser` steps appear). -/
inductive Reachable : State → Prop
  | init : Reachable initState
  | step (s : State) (name email : String) (now : Nat) :
      Reachable s → Reachable (createUser s name email now).2

/-- The inductive invariant of the service state: every stored id is below
`nextId`, ids strictly increase in insertion order, and stored emails are
pairwise distinct. -/
def Inv (s : State) : Prop :=
  (∀ u ∈ s.users, u.id < s.nextId) ∧
  s.users.Pairwise (fun a b => a.id < b.id) ∧
  s.users.Pairwise (fun a b => a.email ≠ b.email)

theorem mapSet_of_fresh (l : List UserRec) (u : UserRec)
    (h : ∀ v ∈ l, v.id ≠ u.id) : mapSet l u = l ++ [u] := by
  unfold mapSet
  rw [if_neg]
  simp only [List.any_eq_true, beq_iff_eq, not_exists, not_and]
  exact h

theorem inv_init : Inv initState := by
  refine ⟨?_, ?_, ?_⟩ <;> simp [initState]

theorem inv_step (s : State) (name email : String) (now : Nat)
    (h : Inv s) : Inv (createUser s name email now).2 := by
  obtain ⟨hlt, hids, hem⟩ := h
  unfold createUser
  by_cases hc : s.users.any (fun u => u.email == email)
  · simpa [hc] using ⟨hlt, hids, hem⟩
  · have hfresh : ∀ v ∈ s.users, v.id ≠ s.nextId := by
      intro v hv heq
      exact absurd (heq ▸ hlt v hv) (lt_irrefl _)
    rw [if_neg hc]
    show Inv ⟨mapSet s.users ⟨s.nextId, name, email, now⟩, s.nextId + 1⟩
    rw [mapSet_of_fresh _ _ hfresh]
    refine ⟨?_, ?_, ?_⟩
    · intro u hu
      rcases List.mem_append.mp hu with h1 | h1
      · exact Nat.lt_succ_of_lt (hlt u h1)
      · simp only [List.mem_singleton] at h1
        subst h1
        exact Nat.lt_succ_self _
    · rw [List.pairwise_append]
      refine ⟨hids, List.pairwise_singleton _ _, ?_⟩
      intro a ha b hb
      simp only [List.mem_singleton] at hb
      subst hb
      exact hlt a ha
    · rw [List.pairwise_append]
      refine ⟨hem, List.pairwise_singleton _ _, ?_⟩
      intro a ha b hb
      simp only [List.mem_singleton] at hb
      subst hb
      simp only [List.any_eq_true, beq_iff_eq, not_exists, not_and] at hc
      exact hc a ha

theorem reachable_inv (s : State) (h : Reachable s) : Inv s := by
  induction h with
  | init => exact inv_init
  | step s name email now _ ih => exact inv_step s name email now ih

end InMem

namespace Db

/-- The persisted `User` entity of the repository-backed service. Its
columns (per the entity's unit tests and the data-model section of the
documentation) are exactly `id` (auto-generated integer primary key),
`name`, `email` and `createdAt`. -/
structure User where
  id : Nat
  name : String
  email : String
  createdAt : Nat
deriving Repr, DecidableEq

/-- The external-facing `UserResponseDto`: exactly the four fields
`id, name, email, createdAt`. -/
structure UserResponse where
  id : Nat
  name : String
  email : String
  createdAt : Nat
deriving Repr, DecidableEq

/-- The four-field projection built inline in `createUser` and
`getUserList`: each response field is a direct copy of the entity field of
the same name. -/
def toResponse (u : User) : UserResponse :=
  ⟨u.id, u.name, u.email, u.createdAt⟩

/-- `userRepository.findOneBy({ email })`: the first stored record whose
`email` column equals the given value (exact string match). -/
def findOneByEmail (repo : List User) (email : String) : Option User :=
  repo.find? (fun u => u.email == email)

/-- `UsersService.createUser` of the repository-backed service: look up an
existing record by email; if found, throw `UserConflictException` and
leave the table unchanged; otherwise persist the new entity (the storage
collaborator assigns `id := newId` and `createdAt := now`) and return its
four-field projection. -/
def createUser (repo : List User) (name email : String) (newId now : Nat) :
    Except InMem.Conflict UserResponse × List User :=
  match findOneByEmail repo email with
  | some _ => (Except.error ⟨InMem.conflictMessage email⟩, repo)
  | none =>
      let savedUser : User := ⟨newId, name, email, now⟩
      (Except.ok (toResponse savedUser), repo ++ [savedUser])

/-- `UsersService.getUserList` of the repository-backed service: fetch all
users (`find()` may in principle yield nothing, guarded by the defensive
null check which returns `[]`), then map each entity to its four-field
response DTO, preserving the order the repository returned. -/
def getUserList (found : Option (List User)) : List UserResponse :=
  match found with
  | none => []
  | some users => users.map toResponse

end Db

namespace Filter

/-- The `message` field of the error envelope: the filter's `message`
variable has TypeScript type `string | string[]`. -/
inductive MsgVal
  | single (s : String)
  | many (l : List String)
deriving Repr, DecidableEq

/-- The request data the filter reads: `request.url` and `request.method`. -/
structure Req where
  url : String
  method : String
deriving Repr, DecidableEq

/-- The standardized error envelope built by `HttpExceptionFilter.catch`:
exactly the six fields `statusCode, timestamp, path, method, message,
error`. -/
structure ErrorResponse where
  statusCode : Nat
  timestamp : String
  path : String
  method : String
  message : MsgVal
  error : String
deriving Repr, DecidableEq

/-- The value of `exception.getResponse()` on an `HttpException`: either a
plain string, or an object whose `message` and `error` properties may each
be present or absent. -/
inductive ExcResponse
  | str (s : String)
  | obj (message : Option MsgVal) (error : Option String)
deriving Repr, DecidableEq

/-- A throwable reaching the catch-all filter: either a known
`HttpException` (with its status, `getResponse()` payload, class name and
`message`), or anything else — storage errors, plain values, any
non-`HttpException` throwable — carrying arbitrary unstructured detail. -/
inductive Exc
  | http (status : Nat) (resp : ExcResponse) (name excMessage : String)
  | unknown (detail : String)
deriving Repr, DecidableEq

/-- JavaScript `a.message || fallback` on the response object: an absent
property or empty string is falsy (fall back); a non-empty string or any
array (even empty) is truthy. -/
def jsOrMsg : Option MsgVal → String → MsgVal
  | some (MsgVal.single s), fb => if s = "" then MsgVal.single fb else MsgVal.single s
  | some (MsgVal.many l), _ => MsgVal.many l
  | none, fb => MsgVal.single fb

/-- JavaScript `a.error || fallback` on the response object. -/
def jsOrErr : Option String → String → String
  | some s, fb => if s = "" then fb else s
  | none, fb => fb

/-- `HttpExceptionFilter.catch`: classify the throwable, extract status,
message and error label (known `HttpException`s keep their own data with
the `||` fallbacks; everything else becomes a generic 500), and build the
standardized envelope from the request's url/method and the current
timestamp. -/
def catchExc (exc : Exc) (req : Req) (timestamp : String) : ErrorResponse :=
  match exc with
  | Exc.http status (ExcResponse.str s) name _ =>
      ⟨status, timestamp, req.url, req.method, MsgVal.single s, name⟩
  | Exc.http status (ExcResponse.obj m e) name excMessage =>
      ⟨status, timestamp, req.url, req.method, jsOrMsg m excMessage, jsOrErr e name⟩
  | Exc.unknown _ =>
      ⟨500, timestamp, req.url, req.method,
        MsgVal.single "Internal server error", "Internal Server Error"⟩

end Filter

namespace Validation

/-- The value found at a payload property: absent (`undefined`), a JSON
string, or some non-string JSON value. -/
inductive FieldVal
  | absent
  | str (s : String)
  | nonString
deriving Repr, DecidableEq

/-- An inbound creation payload: the values at the `name` and `email`
properties, plus the names of any further properties present on the body
(those are outside the DTO's whitelist). -/
structure Payload where
  name : FieldVal
  email : FieldVal
  extras : List String
deriving Repr, DecidableEq

/-- class-validator `@IsNotEmpty`: fails on `undefined`, `null` and the
empty string; any other value (strings included) is non-empty. -/
def isNotEmpty : FieldVal → Bool
  | FieldVal.absent => false
  | FieldVal.str s => s ≠ ""
  | FieldVal.nonString => true

/-- class-validator `@IsString`. -/
def isStringVal : FieldVal → Bool
  | FieldVal.str _ => true
  | _ => false

/-- class-validator `@MinLength(2)`: the value must be a string of length
at least 2 (non-strings and `undefined` fail). -/
def minLengthTwo : FieldVal → Bool
  | FieldVal.str s => s.length ≥ 2
  | _ => false

/-- Split a character list at every occurrence of a separator (the
splitting underlying `String.split`), yielding the separated segments. -/
def splitOnChar (sep : Char) : List Char → List (List Char)
  | [] => [[]]
  | c :: cs =>
      if c = sep then [] :: splitOnChar sep cs
      else
        match splitOnChar sep cs with
        | [] => [[c]]
        | r :: rs => (c :: r) :: rs

/-- Pragmatic email grammar backing `@IsEmail`: a non-empty local part,
one `@`, and a domain of at least two non-empty dot-separated labels. -/
def isValidEmail (s : String) : Bool :=
  match splitOnChar '@' s.data with
  | [lp, domain] =>
      !lp.isEmpty && (splitOnChar '.' domain).length ≥ 2 &&
        (splitOnChar '.' domain).all (fun lab => !lab.isEmpty)
  | _ => false

/-- class-validator `@IsEmail`: the value must be a string in valid email
syntax (non-strings and `undefined` fail). -/
def isEmailVal : FieldVal → Bool
  | FieldVal.str s => isValidEmail s
  | _ => false

/-- The violation messages for the `name` property, one per failing
decorator of `CreateUserDto.name`; class-validator evaluates every
registered constraint on the property and collects all failures. -/
def nameMessages (v : FieldVal) : List String :=
  (if isNotEmpty v then [] else ["Name is required"]) ++
  (if isStringVal v then [] else ["Name must be a string"]) ++
  (if minLengthTwo v then [] else ["Name must be at least 2 characters long"])

/-- The violation messages for the `email` property, one per failing
decorator of `CreateUserDto.email`. -/
def emailMessages (v : FieldVal) : List String :=
  (if isNotEmpty v then [] else ["Email is required"]) ++
  (if isEmailVal v then [] else ["Email must be a valid email address"])

/-- All violation messages the global `ValidationPipe` collects for a
payload: every failing constraint of both DTO properties, plus — under
`whitelist: true, forbidNonWhitelisted: true` — one
`property X should not exist` violation per non-whitelisted property. -/
def validateMessages (p : Payload) : List String :=
  nameMessages p.name ++ emailMessages p.email ++
    p.extras.map (fun f => "property " ++ f ++ " should not exist")

/-- A failure escaping the creation pipeline: a `BadRequestException`
carrying the collected validation messages, or the service's
`UserConflictException`. -/
inductive PipeErr
  | validation (msgs : List String)
  | conflict (c : InMem.Conflict)
deriving Repr, DecidableEq

/-- `POST /users` after admission: the `ValidationPipe` either rejects the
payload with all collected violations (the service is never invoked and no
record is created) or hands the validated `{name, email}` DTO to
`UsersService.createUser`. When validation produced no message both fields
are necessarily strings; the final catch-all branch is unreachable. -/
def handleCreate (s : InMem.State) (p : Payload) (now : Nat) :
    Except PipeErr InMem.UserRec × InMem.State :=
  match validateMessages p with
  | _ :: _ => (Except.error (PipeErr.validation (validateMessages p)), s)
  | [] =>
      match p.name, p.email with
      | FieldVal.str n, FieldVal.str e =>
          match InMem.createUser s n e now with
          | (Except.ok r, s2) => (Except.ok r, s2)
          | (Except.error c, s2) => (Except.error (PipeErr.conflict c), s2)
      | _, _ => (Except.error (PipeErr.validation []), s)

end Validation

/-! ## Claim theorems -/

/-- C1: when a record with the given email already exists, `createUser`
fails with a Conflict error whose message is exactly
`User with email {email} already exists`, and the record set is unchanged:
no record is created and no existing record is modified. -/
theorem Db.createUser_conflict (repo : List Db.User) (name email : String)
    (newId now : Nat) (h : ∃ u ∈ repo, u.email = email) :
    Db.createUser repo name email newId now =
      (Except.error ⟨"User with email " ++ email ++ " already exists"⟩, repo) := by
  obtain ⟨u, hu, he⟩ := h
  have hsome : (Db.findOneByEmail repo email).isSome := by
    unfold Db.findOneByEmail
    rw [List.find?_isSome]
    exact ⟨u, hu, by simp [he]⟩
  unfold Db.createUser
  cases hfind : Db.findOneByEmail repo email with
  | none => rw [hfind] at hsome; simp at hsome
  | some v => rfl

/-- C1 witness: a second creation with an already-stored email fails with
the exact conflict message and leaves the single-record table unchanged. -/
theorem Db.createUser_conflict_witness :
    Db.createUser [⟨1, "John Doe", "john@example.com", 0⟩]
        "Jane" "john@example.com" 2 9 =
      (Except.error ⟨"User with email john@example.com already exists"⟩,
        [⟨1, "John Doe", "john@example.com", 0⟩]) :=
  Db.createUser_conflict _ _ _ _ _
    ⟨⟨1, "John Doe", "john@example.com", 0⟩, by decide, rfl⟩

/-- C2: when no record with the given email exists, `createUser` succeeds:
it builds a record with the freshly allocated `nextId` (never carried by an
existing record), the given name and email, and `createdAt` set to the
current time, appends it to the store, bumps the counter, and returns
exactly that persisted record. -/
theorem InMem.createUser_success (s : InMem.State) (name email : String)
    (now : Nat) (hr : InMem.Reachable s)
    (h : ∀ u ∈ s.users, u.email ≠ email) :
    InMem.createUser s name email now =
      (Except.ok ⟨s.nextId, name, email, now⟩,
        ⟨s.users ++ [⟨s.nextId, name, email, now⟩], s.nextId + 1⟩) ∧
    ∀ u ∈ s.users, u.id ≠ s.nextId := by
  have hinv := InMem.reachable_inv s hr
  have hfresh : ∀ u ∈ s.users, u.id ≠ s.nextId := by
    intro u hu heq
    exact absurd (heq ▸ hinv.1 u hu) (lt_irrefl _)
  have hc : ¬(s.users.any fun u => u.email == email) = true := by
    simp only [List.any_eq_true, beq_iff_eq, not_exists, not_and]
    exact h
  refine ⟨?_, hfresh⟩
  unfold InMem.createUser
  rw [if_neg hc]
  show (_, (⟨InMem.mapSet s.users ⟨s.nextId, name, email, now⟩, s.nextId + 1⟩ :
      InMem.State)) = _
  rw [InMem.mapSet_of_fresh _ _ hfresh]

/-- C2 witness: creating the first user from the initial state persists
and returns `{id := 1, name, email, createdAt := now}`. -/
theorem InMem.createUser_success_witness :
    InMem.createUser InMem.initState "John Doe" "john@example.com" 42 =
      (Except.ok ⟨1, "John Doe", "john@example.com", 42⟩,
        ⟨[⟨1, "John Doe", "john@example.com", 42⟩], 2⟩) :=
  ((InMem.createUser_success InMem.initState "John Doe" "john@example.com" 42
      InMem.Reachable.init (by decide)).1)

/-- C3: under sequential invocation from the empty initial state, email
uniqueness is an invariant — in every reachable state the stored records
carry pairwise distinct emails. -/
theorem InMem.email_uniqueness_invariant (s : InMem.State)
    (h : InMem.Reachable s) :
    s.users.Pairwise (fun a b => a.email ≠ b.email) :=
  (InMem.reachable_inv s h).2.2

/-- C3 witness: the state reached by two creation calls (the second a
conflicting duplicate) satisfies the email-uniqueness invariant. -/
theorem InMem.email_uniqueness_invariant_witness :
    ((InMem.createUser
        (InMem.createUser InMem.initState "John Doe" "john@example.com" 0).2
        "Jane" "john@example.com" 1).2).users.Pairwise
      (fun a b => a.email ≠ b.email) :=
  InMem.email_uniqueness_invariant _
    (InMem.Reachable.step _ _ _ _ (InMem.Reachable.step _ _ _ _ InMem.Reachable.init))

/-- C4: `getUserList` maps every stored record to its response DTO in the
order the storage collaborator returned them, and is total (never an
error); an empty table — or a collaborator returning nothing at all —
yields the empty sequence. -/
theorem Db.getUserList_total :
    (∀ users : List Db.User,
        Db.getUserList (some users) = users.map Db.toResponse) ∧
    Db.getUserList none = [] ∧
    Db.getUserList (some []) = [] :=
  ⟨fun _ => rfl, rfl, rfl⟩

/-- C5: a successful creation returns exactly the four-field projection
`{id, name, email, createdAt}` of the persisted entity, and every element
of a listing is that same four-field projection of the corresponding
stored entity — each field a direct copy, nothing else. -/
theorem Db.response_four_fields :
    (∀ (repo : List Db.User) (name email : String) (newId now : Nat),
        Db.findOneByEmail repo email = none →
        ∃ saved : Db.User,
          Db.createUser repo name email newId now =
            (Except.ok ⟨saved.id, saved.name, saved.email, saved.createdAt⟩,
              repo ++ [saved])) ∧
    ∀ users : List Db.User,
      Db.getUserList (some users) =
        users.map (fun u =>
          (⟨u.id, u.name, u.email, u.createdAt⟩ : Db.UserResponse)) := by
  constructor
  · intro repo name email newId now hnone
    refine ⟨⟨newId, name, email, now⟩, ?_⟩
    unfold Db.createUser
    rw [hnone]
    rfl
  · intro users
    rfl

/-- C5 witness: creating into an empty table returns the projection of the
one persisted entity. -/
theorem Db.response_four_fields_witness :
    ∃ saved : Db.User,
      Db.createUser [] "John Doe" "john@example.com" 1 7 =
        (Except.ok ⟨saved.id, saved.name, saved.email, saved.createdAt⟩,
          [] ++ [saved]) :=
  Db.response_four_fields.1 [] "John Doe" "john@example.com" 1 7 rfl

/-- C6: every envelope the error formatter emits carries the request's
timestamp, path and method (all six fields are present by construction of
`ErrorResponse`), and every unclassified failure — whatever detail it
carries — is rendered as exactly
`{500, timestamp, path, method, "Internal server error",
"Internal Server Error"}`, so no detail of the original failure leaks. -/
theorem Filter.envelope_stable (exc : Filter.Exc) (req : Filter.Req)
    (ts : String) :
    ((Filter.catchExc exc req ts).timestamp = ts ∧
      (Filter.catchExc exc req ts).path = req.url ∧
      (Filter.catchExc exc req ts).method = req.method) ∧
    ∀ detail : String,
      Filter.catchExc (Filter.Exc.unknown detail) req ts =
        ⟨500, ts, req.url, req.method,
          Filter.MsgVal.single "Internal server error",
          "Internal Server Error"⟩ := by
  refine ⟨?_, fun _ => rfl⟩
  cases exc with
  | http status resp name excMessage => cases resp <;> exact ⟨rfl, rfl, rfl⟩
  | unknown detail => exact ⟨rfl, rfl, rfl⟩

/-- C7 counterexample: a payload missing both `name` and `email` does not
yield exactly two violation messages — the decorator stack produces five
(the three name constraints and the two email constraints all fail). -/
theorem Validation.missing_both_not_two :
    Validation.validateMessages ⟨Validation.FieldVal.absent,
        Validation.FieldVal.absent, []⟩ =
      ["Name is required", "Name must be a string",
        "Name must be at least 2 characters long",
        "Email is required", "Email must be a valid email address"] ∧
    (Validation.validateMessages ⟨Validation.FieldVal.absent,
        Validation.FieldVal.absent, []⟩).length ≠ 2 :=
  ⟨rfl, by decide⟩

/-- C7 amended: a payload missing both `name` and `email` has all its
violations collected in one pass — the three name-constraint messages
followed by the two email-constraint messages, five in total, so both
fields are reported and validation is not short-circuited at the first
failure. -/
theorem Validation.missing_both_all_collected (p : Validation.Payload)
    (hn : p.name = Validation.FieldVal.absent)
    (he : p.email = Validation.FieldVal.absent)
    (hx : p.extras = []) :
    Validation.validateMessages p =
      Validation.nameMessages Validation.FieldVal.absent ++
        Validation.emailMessages Validation.FieldVal.absent ∧
    Validation.validateMessages p =
      ["Name is required", "Name must be a string",
        "Name must be at least 2 characters long",
        "Email is required", "Email must be a valid email address"] ∧
    (Validation.validateMessages p).length = 5 ∧
    (Validation.nameMessages Validation.FieldVal.absent).length = 3 ∧
    (Validation.emailMessages Validation.FieldVal.absent).length = 2 := by
  obtain ⟨n, e, x⟩ := p
  cases hn
  cases he
  cases hx
  exact ⟨rfl, rfl, rfl, rfl, rfl⟩

/-- C7 amended witness: the empty payload yields the five collected
messages, split three/two between the name and email constraints. -/
theorem Validation.missing_both_all_collected_witness :
    Validation.validateMessages ⟨Validation.FieldVal.absent,
        Validation.FieldVal.absent, []⟩ =
      Validation.nameMessages Validation.FieldVal.absent ++
        Validation.emailMessages Validation.FieldVal.absent ∧
    Validation.validateMessages ⟨Validation.FieldVal.absent,
        Validation.FieldVal.absent, []⟩ =
      ["Name is required", "Name must be a string",
        "Name must be at least 2 characters long",
        "Email is required", "Email must be a valid email address"] ∧
    (Validation.validateMessages ⟨Validation.FieldVal.absent,
        Validation.FieldVal.absent, []⟩).length = 5 ∧
    (Validation.nameMessages Validation.FieldVal.absent).length = 3 ∧
    (Validation.emailMessages Validation.FieldVal.absent).length = 2 :=
  Validation.missing_both_all_collected _ rfl rfl rfl

/-- C8: a creation payload carrying any property beyond `name`/`email` is
rejected outright by the whitelist validation — the request fails with the
collected violations (which are non-empty), the service is never reached,
and the record set is unchanged. -/
theorem Validation.extra_field_rejected (s : InMem.State)
    (p : Validation.Payload) (now : Nat) (h : p.extras ≠ []) :
    Validation.handleCreate s p now =
      (Except.error (Validation.PipeErr.validation
        (Validation.validateMessages p)), s) ∧
    Validation.validateMessages p ≠ [] := by
  have hne : Validation.validateMessages p ≠ [] := by
    intro habs
    unfold Validation.validateMessages at habs
    rw [List.append_eq_nil, List.append_eq_nil] at habs
    exact h (List.map_eq_nil_iff.mp habs.2)
  refine ⟨?_, hne⟩
  cases hv : Validation.validateMessages p with
  | nil => exact absurd hv hne
  | cons a t =>
      unfold Validation.handleCreate
      rw [hv]

/-- C8 witness: `foo: "bar"` alongside a valid name and email is rejected
with the whitelist violation and the initial state is unchanged. -/
theorem Validation.extra_field_rejected_witness :
    Validation.handleCreate InMem.initState
        ⟨Validation.FieldVal.str "John Doe",
          Validation.FieldVal.str "john@example.com", ["foo"]⟩ 0 =
      (Except.error (Validation.PipeErr.validation
        ["property foo should not exist"]), InMem.initState) := by
  have h := (Validation.extra_field_rejected InMem.initState
    ⟨Validation.FieldVal.str "John Doe",
      Validation.FieldVal.str "john@example.com", ["foo"]⟩ 0 (by decide)).1
  rw [h]
  rfl

/-- C9: in every reachable state the stored ids are strictly increasing in
allocation (insertion) order — so no two records share an id — and every
stored id is below the `nextId` counter, so an id once allocated is never
assigned again. -/
theorem InMem.id_allocation_monotone (s : InMem.State)
    (h : InMem.Reachable s) :
    s.users.Pairwise (fun a b => a.id < b.id) ∧
    ∀ u ∈ s.users, u.id < s.nextId :=
  ⟨(InMem.reachable_inv s h).2.1, (InMem.reachable_inv s h).1⟩

/-- C9 witness: after one successful creation the single stored id is 1
and lies below the counter 2. -/
theorem InMem.id_allocation_monotone_witness :
    ((InMem.createUser InMem.initState "John Doe" "john@example.com" 0).2).users.Pairwise
      (fun a b => a.id < b.id) ∧
    ∀ u ∈ ((InMem.createUser InMem.initState "John Doe" "john@example.com" 0).2).users,
      u.id < ((InMem.createUser InMem.initState "John Doe" "john@example.com" 0).2).nextId :=
  InMem.id_allocation_monotone _ (InMem.Reachable.step _ _ _ _ InMem.Reachable.init)

/-- C10: the conflict check compares emails by exact, case-sensitive
string equality — it fires precisely when some stored record's email is
string-equal to the requested one, and whenever no stored email is
string-equal (in particular when they differ only in letter case) the
creation proceeds and succeeds. -/
theorem InMem.email_check_case_sensitive (s : InMem.State)
    (name email : String) (now : Nat) :
    ((InMem.createUser s name email now).1 =
        Except.error ⟨InMem.conflictMessage email⟩ ↔
      ∃ u ∈ s.users, u.email = email) ∧
    ((∀ u ∈ s.users, u.email ≠ email) →
      (InMem.createUser s name email now).1 =
        Except.ok ⟨s.nextId, name, email, now⟩) := by
  by_cases hc : (s.users.any fun u => u.email == email) = true
  · have hex : ∃ u ∈ s.users, u.email = email := by
      simpa only [List.any_eq_true, beq_iff_eq] using hc
    have hfst : (InMem.createUser s name email now).1 =
        Except.error ⟨InMem.conflictMessage email⟩ := by
      unfold InMem.createUser
      rw [if_pos hc]
    refine ⟨?_, fun hall => ?_⟩
    · rw [hfst]
      exact ⟨fun _ => hex, fun _ => rfl⟩
    · obtain ⟨u, hu, he⟩ := hex
      exact absurd he (hall u hu)
  · have hnex : ¬∃ u ∈ s.users, u.email = email := by
      simpa only [List.any_eq_true, beq_iff_eq] using hc
    have hfst : (InMem.createUser s name email now).1 =
        Except.ok ⟨s.nextId, name, email, now⟩ := by
      unfold InMem.createUser
      rw [if_neg hc]
    refine ⟨?_, fun _ => hfst⟩
    rw [hfst]
    exact ⟨fun habs => absurd habs (by simp), fun hex => absurd hex hnex⟩

/-- C10 witness: with `John@Example.com` stored, creating
`john@example.com` (differing only in case) does not hit the conflict
check and succeeds. -/
theorem InMem.email_check_case_sensitive_witness :
    (InMem.createUser ⟨[⟨1, "John Doe", "John@Example.com", 0⟩], 2⟩
        "Jane" "john@example.com" 7).1 =
      Except.ok ⟨2, "Jane", "john@example.com", 7⟩ :=
  (InMem.email_check_case_sensitive ⟨[⟨1, "John Doe", "John@Example.com", 0⟩], 2⟩
    "Jane" "john@example.com" 7).2 (by decide)
